import Mathlib

/-!
Verification of the Alliance negotiation game server (alliance_mcp_server.py).

The embedding below is a shallow, executable translation of the server code:
Python dictionaries become association lists (insertion order preserved,
assignment overwrites in place, new keys are appended at the end), Python
exceptions become `Except String` (the string is `str(e)`), and the
`KeyError` that a `players_by_name[k]` subscript can raise inside
`advance_round` is modelled by threading `Option` through the scoring
rules.  The admin call `advance_round` therefore has the type
`GameState -> Option (GameState x Scoreboard)`, where `none` marks the
would-be `KeyError` paths.
-/

namespace Alliance

/-- Lookup in an association list, first matching key wins.  Models
Python dictionary subscript / `.get`. -/
def dictGet {β : Type} (d : List (String × β)) (k : String) : Option β :=
  match d with
  | [] => none
  | e :: rest => if e.1 = k then some e.2 else dictGet rest k

/-- Assignment `d[k] = v` on a Python dictionary: an existing key keeps its
position and gets the new value, a fresh key is appended at the end. -/
def dictSet {β : Type} (d : List (String × β)) (k : String) (v : β) :
    List (String × β) :=
  match d with
  | [] => [(k, v)]
  | e :: rest => if e.1 = k then (k, v) :: rest else e :: dictSet rest k v

/-- In-place update of the value stored under `k`; a no-op when `k` is
absent (used only under a preceding `k in d` guard, as in the source). -/
def dictModify {β : Type} (d : List (String × β)) (k : String) (f : β → β) :
    List (String × β) :=
  match d with
  | [] => []
  | e :: rest =>
    if e.1 = k then (e.1, f e.2) :: rest else e :: dictModify rest k f

/-- In-place update of the value stored under `k`, failing (like a Python
`KeyError` on `d[k]`) when `k` is absent. -/
def dictModifyE {β : Type} (d : List (String × β)) (k : String) (f : β → β) :
    Option (List (String × β)) :=
  match d with
  | [] => none
  | e :: rest =>
    if e.1 = k then some ((e.1, f e.2) :: rest)
    else (dictModifyE rest k f).map (fun d2 => e :: d2)

/-- `Message` dataclass. -/
structure Message where
  from_player : String
  to_player : String
  message : String
  round_number : Nat
deriving DecidableEq

/-- `Player` dataclass.  `supported_you_last_round` is a set of names;
it is modelled as the list of supporters recorded at round resolution. -/
structure Player where
  name : String
  private_id : String
  score : Int
  supported_you_last_round : List String
deriving DecidableEq

/-- `GameState`.  `players_by_name` is the authoritative store; since both
Python dictionaries hold the very same `Player` objects, the `players_by_private`
dictionary is modelled as a map from private id to the player name, composed
with a `players_by_name` lookup. -/
structure GameState where
  players_by_name : List (String × Player)
  players_by_private : List (String × String)
  current_round : Nat
  current_supports : List (String × String)
  messages : List Message
deriving DecidableEq

/-- The state `GameState()` constructed at server start. -/
def GameState.init : GameState :=
  { players_by_name := []
    players_by_private := []
    current_round := 1
    current_supports := []
    messages := [] }

/-- One entry of the `other_players` list of a status payload. -/
structure OtherPlayerInfo where
  player_name : String
  score : Int
  supported_you_last_round : Bool
deriving DecidableEq

/-- One entry of the `messages_received_this_round` list of a status
payload (the `from` and `message` fields). -/
structure StatusMessage where
  from_player : String
  message : String
deriving DecidableEq

/-- The status payload built by `GameState._build_status`. -/
structure Status where
  player_name : String
  private_id : String
  score : Int
  round_number : Nat
  seconds_remaining : Nat
  other_players : List OtherPlayerInfo
  messages_received_this_round : List StatusMessage
deriving DecidableEq

/-- The list comprehension of `_build_status` (lines 185-189): the messages
of the log addressed to `pname` whose round tag equals the current round. -/
def messagesThisRound (s : GameState) (pname : String) : List Message :=
  s.messages.filter
    (fun m => m.to_player == pname && m.round_number == s.current_round)

/-- `GameState._build_status`. -/
def build_status (s : GameState) (p : Player) : Status :=
  { player_name := p.name
    private_id := p.private_id
    score := p.score
    round_number := s.current_round
    seconds_remaining := 0
    other_players :=
      (s.players_by_name.filter (fun e => !(e.1 == p.name))).map
        (fun e =>
          { player_name := e.2.name
            score := e.2.score
            supported_you_last_round :=
              p.supported_you_last_round.contains e.2.name })
    messages_received_this_round :=
      (messagesThisRound s p.name).map
        (fun m => { from_player := m.from_player, message := m.message }) }

/-- `GameState._get_player_by_private`, composed with the by-name lookup
that dereferences the shared `Player` object. -/
def getPlayerByPrivate (s : GameState) (private_id : String) : Option Player :=
  (dictGet s.players_by_private private_id).bind
    (fun n => dictGet s.players_by_name n)

/-- `GameState.register_player`.  `fresh_id` is the value drawn from
`uuid.uuid4()`, passed in explicitly. -/
def register_player (s : GameState) (player_name : String) (fresh_id : String) :
    Except String (GameState × Status) :=
  if (dictGet s.players_by_name player_name).isSome then
    .error ("Player \x27" ++ player_name ++ "\x27 already exists")
  else
    let p : Player :=
      { name := player_name, private_id := fresh_id, score := 0
        supported_you_last_round := [] }
    let s2 : GameState :=
      { s with
        players_by_name := dictSet s.players_by_name player_name p
        players_by_private := dictSet s.players_by_private fresh_id player_name }
    .ok (s2, build_status s2 p)

/-- `GameState.get_status`. -/
def get_status (s : GameState) (private_id : String) :
    Except String (GameState × Status) :=
  match getPlayerByPrivate s private_id with
  | none => .error "Unknown private_id"
  | some p => .ok (s, build_status s p)

/-- `GameState.send_message`. -/
def send_message (s : GameState) (private_id recipient_player_name text : String) :
    Except String (GameState × Status) :=
  match getPlayerByPrivate s private_id with
  | none => .error "Unknown private_id"
  | some sender =>
    match dictGet s.players_by_name recipient_player_name with
    | none =>
      .error ("Unknown player \x27" ++ recipient_player_name ++ "\x27")
    | some recipient =>
      let s2 : GameState :=
        { s with
          messages := s.messages ++
            [{ from_player := sender.name, to_player := recipient.name
               message := text, round_number := s.current_round }] }
      .ok (s2, build_status s2 sender)

/-- `GameState.register_support`. -/
def register_support (s : GameState) (private_id player_to_support : String) :
    Except String (GameState × Status) :=
  match getPlayerByPrivate s private_id with
  | none => .error "Unknown private_id"
  | some supporter =>
    if player_to_support = supporter.name then
      .error "You cannot support yourself"
    else
      match dictGet s.players_by_name player_to_support with
      | none =>
        .error ("Unknown player \x27" ++ player_to_support ++ "\x27")
      | some _ =>
        let s2 : GameState :=
          { s with
            current_supports :=
              dictSet s.current_supports supporter.name player_to_support }
        .ok (s2, build_status s2 supporter)

/-- One iteration of the loop filling `supporters_of` (lines 116-118):
append the supporter to the target bucket when the target is a key. -/
def soStep (acc : List (String × List String)) (e : String × String) :
    List (String × List String) :=
  if (dictGet acc e.2).isSome then dictModify acc e.2 (fun ls => ls ++ [e.1])
  else acc

/-- `supporters_of` (lines 113-118): one empty bucket per registered player,
then each ledger entry appended to its target bucket. -/
def buildSupportersOf (ps : List (String × Player))
    (supports : List (String × String)) : List (String × List String) :=
  supports.foldl soStep (ps.map (fun e => (e.1, ([] : List String))))

/-- Lines 121-122: reset every `supported_you_last_round` set. -/
def clearSupported (ps : List (String × Player)) : List (String × Player) :=
  ps.map (fun e => (e.1, { e.2 with supported_you_last_round := [] }))

/-- One iteration of scoring rule 1 (lines 125-128): a player with a
nonempty supporter bucket gains its size and records the set. -/
def r1Step (acc : Option (List (String × Player))) (e : String × List String) :
    Option (List (String × Player)) :=
  acc.bind (fun ps =>
    if e.2 ≠ [] then
      dictModifyE ps e.1 (fun pl =>
        { pl with score := pl.score + (e.2.length : Int)
                  supported_you_last_round := e.2 })
    else some ps)

/-- Scoring rule 1, SUPPORTS RECEIVED. -/
def applyRule1 (ps : List (String × Player))
    (so : List (String × List String)) : Option (List (String × Player)) :=
  so.foldl r1Step (some ps)

/-- Lexicographic (code-point) comparison of character lists: the order
Python uses on strings. -/
def charsLt : List Char → List Char → Bool
  | [], [] => false
  | [], _ :: _ => true
  | _ :: _, [] => false
  | a :: as, b :: bs =>
    if a < b then true else if b < a then false else charsLt as bs

/-- Python string comparison `a < b`. -/
def pyStrLt (a b : String) : Bool := charsLt a.data b.data

/-- One iteration of scoring rule 2 (lines 131-135): each mutual pair,
counted once by lexicographic order of the entry, gains +2 on both sides. -/
def r2Step (supports : List (String × String))
    (acc : Option (List (String × Player))) (e : String × String) :
    Option (List (String × Player)) :=
  acc.bind (fun ps =>
    if pyStrLt e.1 e.2 ∧ dictGet supports e.2 = some e.1 then
      (dictModifyE ps e.1 (fun pl => { pl with score := pl.score + 2 })).bind
        (fun ps2 =>
          dictModifyE ps2 e.2 (fun pl => { pl with score := pl.score + 2 }))
    else some ps)

/-- Scoring rule 2, MUTUAL ALLIANCE BONUS. -/
def applyRule2 (ps : List (String × Player))
    (supports : List (String × String)) : Option (List (String × Player)) :=
  supports.foldl (r2Step supports) (some ps)

/-- One iteration of scoring rule 3 (lines 138-140): a supporter whose
target does not support them back loses 1. -/
def r3Step (supports : List (String × String))
    (acc : Option (List (String × Player))) (e : String × String) :
    Option (List (String × Player)) :=
  acc.bind (fun ps =>
    if dictGet supports e.2 ≠ some e.1 then
      dictModifyE ps e.1 (fun pl => { pl with score := pl.score - 1 })
    else some ps)

/-- Scoring rule 3, UNRECIPROCATED PENALTY. -/
def applyRule3 (ps : List (String × Player))
    (supports : List (String × String)) : Option (List (String × Player)) :=
  supports.foldl (r3Step supports) (some ps)

/-- Scoring rule 4, NO SUPPORT PENALTY (lines 143-145): every registered
player with no ledger entry as a supporter loses 1. -/
def applyRule4 (ps : List (String × Player))
    (supports : List (String × String)) : List (String × Player) :=
  ps.map (fun e =>
    if (dictGet supports e.1).isNone then
      (e.1, { e.2 with score := e.2.score - 1 })
    else e)

/-- Insert a name into a sorted list of names. -/
def insertName (x : String) : List String → List String
  | [] => [x]
  | y :: ys => if pyStrLt y x then y :: insertName x ys else x :: y :: ys

/-- `sorted(...)` over the player names. -/
def sortNames (l : List String) : List String := l.foldr insertName []

/-- One entry of the scoreboard built at lines 148-158. -/
structure ScoreEntry where
  player_name : String
  score : Int
  supported : Option String
  supporters_this_round : List String
deriving DecidableEq

/-- The value returned by `advance_round` (lines 164-167). -/
structure Scoreboard where
  round_number : Nat
  scores : List ScoreEntry
deriving DecidableEq

/-- `GameState.advance_round`.  `none` marks a `KeyError` raised by a
`players_by_name[...]` subscript inside rules 1-3. -/
def advance_round (s : GameState) : Option (GameState × Scoreboard) :=
  let prev_round := s.current_round
  let supports := s.current_supports
  let so := buildSupportersOf s.players_by_name supports
  let ps0 := clearSupported s.players_by_name
  (applyRule1 ps0 so).bind (fun ps1 =>
  (applyRule2 ps1 supports).bind (fun ps2 =>
  (applyRule3 ps2 supports).map (fun ps3 =>
    let ps4 := applyRule4 ps3 supports
    let scores_list : List ScoreEntry :=
      (sortNames (ps4.map Prod.fst)).filterMap (fun n =>
        (dictGet ps4 n).map (fun pl =>
          { player_name := n
            score := pl.score
            supported := dictGet supports n
            supporters_this_round := (dictGet so n).getD [] }))
    ({ s with
       players_by_name := ps4
       current_round := s.current_round + 1
       current_supports := [] },
     { round_number := prev_round, scores := scores_list }))))

/-- A content item of a tool-call result: the structured (`"type": "json"`)
form or the textual (`"type": "text"`) form. -/
inductive ContentItem where
  | json (payload : Status)
  | text (text : String)
deriving DecidableEq

/-- Whether a content item is the structured (JSON) form. -/
def ContentItem.isJsonItem : ContentItem → Bool
  | .json _ => true
  | .text _ => false

/-- Outcome of the `tools/call` branch of the endpoint: either a tool
result (content list plus `isError` flag) or a protocol-level error. -/
inductive CallOutcome where
  | result (content : List ContentItem) (isError : Bool)
  | rpcError (code : Int) (message : String)
deriving DecidableEq

/-- Models `json.dumps(res, indent=2)`: a textual serialization of the
status payload.  Only the fact that the text item is computed from the
same payload object as the structured item is load-bearing; the exact
formatting of the Python serializer is not reproduced. -/
def dumps (st : Status) : String :=
  "\x7b \x22player_name\x22: \x22" ++ st.player_name ++
    "\x22, \x22private_id\x22: \x22" ++ st.private_id ++
    "\x22, \x22score\x22: " ++ toString st.score ++
    ", \x22round_number\x22: " ++ toString st.round_number ++
    ", \x22seconds_remaining\x22: " ++ toString st.seconds_remaining ++
    ", \x22other_players\x22: [" ++
    String.intercalate ", " (st.other_players.map (fun o =>
      "\x7b \x22player_name\x22: \x22" ++ o.player_name ++
        "\x22, \x22score\x22: " ++ toString o.score ++
        ", \x22supported_you_last_round\x22: " ++
        (if o.supported_you_last_round then "true" else "false") ++ " \x7d")) ++
    "], \x22messages_received_this_round\x22: [" ++
    String.intercalate ", " (st.messages_received_this_round.map (fun m =>
      "\x7b \x22from\x22: \x22" ++ m.from_player ++
        "\x22, \x22message\x22: \x22" ++ m.message ++ "\x22 \x7d")) ++
    "] \x7d"

/-- `arguments["k"]`: a missing key raises `KeyError` whose `str` form is
the quoted key, caught by the surrounding `except` clause. -/
def getArg (args : List (String × String)) (k : String) :
    Except String String :=
  match dictGet args k with
  | some v => .ok v
  | none => .error ("\x27" ++ k ++ "\x27")

/-- Lines 371-394: a successful tool invocation is framed as a content
list holding the structured payload and its serialization with
`isError = false`; a raised exception is framed as a single text item
carrying `"Error: " ++ str(e)` with `isError = true` (state unchanged). -/
def frameTool (s : GameState) (r : Except String (GameState × Status)) :
    GameState × CallOutcome :=
  match r with
  | .ok (s2, res) =>
    (s2, .result [.json res, .text (dumps res)] false)
  | .error msg => (s, .result [.text ("Error: " ++ msg)] true)

/-- The `tools/call` branch of `mcp_endpoint` (lines 346-394).  `fresh_id`
is the `uuid.uuid4()` value a `register_player` call would draw. -/
def handleToolsCall (s : GameState) (name : String)
    (args : List (String × String)) (fresh_id : String) :
    GameState × CallOutcome :=
  if name = "register_player" then
    frameTool s (getArg args "player_name" >>= fun pn =>
      register_player s pn fresh_id)
  else if name = "get_status" then
    frameTool s (getArg args "private_id" >>= fun pid => get_status s pid)
  else if name = "send_message" then
    frameTool s (getArg args "private_id" >>= fun pid =>
      getArg args "recipient_player_name" >>= fun r =>
      getArg args "message" >>= fun m => send_message s pid r m)
  else if name = "register_support" then
    frameTool s (getArg args "private_id" >>= fun pid =>
      getArg args "player_to_support" >>= fun t =>
      register_support s pid t)
  else (s, .rpcError (-32602) ("Unknown tool: " ++ name))

/-- States reachable from server start through the public operations and
the admin round advance.  Failed calls raise before mutating, so they do
not change the state and need no constructor. -/
inductive Reachable : GameState → Prop where
  | init : Reachable GameState.init
  | register (s s2 : GameState) (nm fid : String) (st : Status) :
      Reachable s → register_player s nm fid = .ok (s2, st) → Reachable s2
  | status (s s2 : GameState) (pid : String) (st : Status) :
      Reachable s → get_status s pid = .ok (s2, st) → Reachable s2
  | message (s s2 : GameState) (pid r m : String) (st : Status) :
      Reachable s → send_message s pid r m = .ok (s2, st) → Reachable s2
  | support (s s2 : GameState) (pid t : String) (st : Status) :
      Reachable s → register_support s pid t = .ok (s2, st) → Reachable s2
  | advance (s s2 : GameState) (sb : Scoreboard) :
      Reachable s → advance_round s = some (s2, sb) → Reachable s2

/-! ### Derived notions used to state the claims -/

/-- The cumulative score stored for `n` (0 when `n` is unregistered). -/
def scoreAt (ps : List (String × Player)) (n : String) : Int :=
  ((dictGet ps n).map Player.score).getD 0

/-- The supporters whose ledger entry targets `n`, in ledger order: the
bucket rule 1 credits to `n`. -/
def supportersReceived (supports : List (String × String)) (n : String) :
    List String :=
  (supports.filter (fun e => e.2 == n)).map Prod.fst

/-- The per-player effect of rule 1 given the supporter bucket of the
player (`none` when the player has no bucket). -/
def r1Upd (o : Option (List String)) (pl : Player) : Player :=
  match o with
  | some sr =>
    if sr = [] then pl
    else { pl with score := pl.score + (sr.length : Int)
                   supported_you_last_round := sr }
  | none => pl

/-- Add `k` to a score. -/
def addScore (k : Int) (pl : Player) : Player :=
  { pl with score := pl.score + k }

/-- How many entries of the iterated list `l` fire rule 2 and touch `n`. -/
def r2CountL (supports l : List (String × String)) (n : String) : Nat :=
  (l.filter (fun e =>
    pyStrLt e.1 e.2 && (dictGet supports e.2 == some e.1) &&
      (e.1 == n || e.2 == n))).length

/-- How many entries of the iterated list `l` fire rule 3 against `n`. -/
def r3CountL (supports l : List (String × String)) (n : String) : Nat :=
  (l.filter (fun e =>
    (e.1 == n) && !(dictGet supports e.2 == some e.1))).length

/-- The score delta rule 1 (SUPPORTS RECEIVED) gives to `n` on its own:
score after the rule-1 pass minus score before it. -/
def rule1Delta (ps : List (String × Player))
    (supports : List (String × String)) (n : String) : Int :=
  scoreAt ((applyRule1 (clearSupported ps)
      (buildSupportersOf ps supports)).getD (clearSupported ps)) n -
    scoreAt (clearSupported ps) n

/-- The score delta rule 4 (NO SUPPORT PENALTY) gives to `n` on its own:
score after the rule-4 pass minus score before it. -/
def rule4Delta (ps : List (String × Player))
    (supports : List (String × String)) (n : String) : Int :=
  scoreAt (applyRule4 ps supports) n - scoreAt ps n

/-- Whether a content list holds a structured (JSON) item. -/
def hasJsonItem (content : List ContentItem) : Bool :=
  content.any ContentItem.isJsonItem

/-- The shape every `other_players` entry of a status must have: it shows
the name and score of some registered player other than the status owner,
plus the supported-you flag, and nothing else (in particular no token). -/
def OtherOk (s2 : GameState) (st : Status) : Prop :=
  ∀ o ∈ st.other_players, ∃ q, q ∈ s2.players_by_name.map Prod.snd ∧
    q.name ≠ st.player_name ∧ o.player_name = q.name ∧ o.score = q.score

/-- The state invariant maintained by every public operation:
(1) every ledger entry names a registered supporter and a registered
target; (2) every token entry resolves to a player carrying that token;
(3) every registry entry stores a player under the player's own name;
(4) registry keys are distinct; (5) ledger keys are distinct. -/
def Inv (s : GameState) : Prop :=
  (∀ e ∈ s.current_supports,
      (dictGet s.players_by_name e.1).isSome ∧
      (dictGet s.players_by_name e.2).isSome) ∧
  (∀ e ∈ s.players_by_private,
      ∃ p, dictGet s.players_by_name e.2 = some p ∧ p.private_id = e.1) ∧
  (∀ e ∈ s.players_by_name, Player.name e.2 = e.1) ∧
  (s.players_by_name.map Prod.fst).Nodup ∧
  (s.current_supports.map Prod.fst).Nodup

/-! ### Concrete fixtures -/

/-- Player A as `register_player("A")` creates it with token `"ida"`. -/
def pA : Player :=
  { name := "A", private_id := "ida", score := 0
    supported_you_last_round := [] }

/-- Player B with token `"idb"`. -/
def pB : Player :=
  { name := "B", private_id := "idb", score := 0
    supported_you_last_round := [] }

/-- Player C with token `"idc"`. -/
def pC : Player :=
  { name := "C", private_id := "idc", score := 0
    supported_you_last_round := [] }

/-- State with only player A registered. -/
def sA : GameState :=
  { players_by_name := [("A", pA)]
    players_by_private := [("ida", "A")]
    current_round := 1
    current_supports := []
    messages := [] }

/-- State with players A and B registered. -/
def sAB : GameState :=
  { players_by_name := [("A", pA), ("B", pB)]
    players_by_private := [("ida", "A"), ("idb", "B")]
    current_round := 1
    current_supports := []
    messages := [] }

/-- A message from A to A sent in round 1. -/
def msgAA : Message :=
  { from_player := "A", to_player := "A", message := "hello"
    round_number := 1 }

/-- `sA` after A sent itself `msgAA`. -/
def sAmsg : GameState := { sA with messages := [msgAA] }

/-- The scenario of claim C3: players A, B, C at score 0; the ledger maps
A to B and B to C; C is absent. -/
def stC3 : GameState :=
  { players_by_name := [("A", pA), ("B", pB), ("C", pC)]
    players_by_private := [("ida", "A"), ("idb", "B"), ("idc", "C")]
    current_round := 1
    current_supports := [("A", "B"), ("B", "C")]
    messages := [] }

/-- Player set for the C1 counterexample. -/
def psC1 : List (String × Player) := [("A", pA), ("B", pB)]

/-- Ledger for the C1 counterexample: B supports A, A abstains. -/
def supC1 : List (String × String) := [("B", "A")]

/-- A mutual ledger: A supports B and B supports A. -/
def supMut : List (String × String) := [("A", "B"), ("B", "A")]

/-! ### Dictionary lemmas -/

theorem dictGet_dictSet_self {β : Type} (d : List (String × β)) (k : String)
    (v : β) : dictGet (dictSet d k v) k = some v := by
  induction d with
  | nil => simp [dictGet, dictSet]
  | cons e rest ih =>
    by_cases h : e.1 = k
    · simp [dictGet, dictSet, h]
    · simp [dictGet, dictSet, h, ih]

theorem dictGet_dictSet_ne {β : Type} (d : List (String × β)) (k k2 : String)
    (v : β) (h : k2 ≠ k) : dictGet (dictSet d k v) k2 = dictGet d k2 := by
  induction d with
  | nil =>
    simp only [dictSet, dictGet]
    rw [if_neg (fun hx : k = k2 => h hx.symm)]
  | cons e rest ih =>
    simp only [dictSet]
    by_cases he : e.1 = k
    · simp only [if_pos he, dictGet]
      rw [if_neg (fun hx : k = k2 => h hx.symm),
        if_neg (fun hx : e.1 = k2 => h ((he.symm.trans hx).symm))]
    · simp only [if_neg he, dictGet]
      by_cases he2 : e.1 = k2
      · rw [if_pos he2, if_pos he2]
      · rw [if_neg he2, if_neg he2, ih]

theorem dictGet_isSome_dictSet {β : Type} (d : List (String × β))
    (k k2 : String) (v : β) (h : (dictGet d k2).isSome) :
    (dictGet (dictSet d k v) k2).isSome := by
  by_cases hk : k2 = k
  · subst hk; simp [dictGet_dictSet_self]
  · rwa [dictGet_dictSet_ne d k k2 v hk]

theorem mem_dictSet {β : Type} {d : List (String × β)} {k : String} {v : β}
    {e : String × β} (h : e ∈ dictSet d k v) : e ∈ d ∨ e = (k, v) := by
  induction d with
  | nil => simpa [dictSet] using h
  | cons e2 rest ih =>
    by_cases he : e2.1 = k
    · simp only [dictSet, if_pos he] at h
      rcases List.mem_cons.1 h with h2 | h2
      · right; exact h2
      · left; exact List.mem_cons_of_mem _ h2
    · simp only [dictSet, if_neg he] at h
      rcases List.mem_cons.1 h with h2 | h2
      · left; exact h2 ▸ List.mem_cons_self _ _
      · rcases ih h2 with h3 | h3
        · left; exact List.mem_cons_of_mem _ h3
        · right; exact h3

theorem dictSet_keys_of_isSome {β : Type} (d : List (String × β)) (k : String)
    (v : β) (h : (dictGet d k).isSome) :
    (dictSet d k v).map Prod.fst = d.map Prod.fst := by
  induction d with
  | nil => simp [dictGet] at h
  | cons e rest ih =>
    by_cases he : e.1 = k
    · simp [dictSet, he]
    · simp only [dictGet, if_neg he] at h
      simp [dictSet, he, ih h]

theorem dictSet_keys_of_isNone {β : Type} (d : List (String × β)) (k : String)
    (v : β) (h : dictGet d k = none) :
    (dictSet d k v).map Prod.fst = d.map Prod.fst ++ [k] := by
  induction d with
  | nil => simp [dictSet]
  | cons e rest ih =>
    by_cases he : e.1 = k
    · simp [dictGet, he] at h
    · simp only [dictGet, if_neg he] at h
      simp [dictSet, he, ih h]

theorem mem_keys_iff {β : Type} (d : List (String × β)) (n : String) :
    n ∈ d.map Prod.fst ↔ (dictGet d n).isSome := by
  induction d with
  | nil => simp [dictGet]
  | cons e rest ih =>
    by_cases he : e.1 = n
    · simp [dictGet, he]
    · rw [List.map_cons]
      simp only [List.mem_cons, dictGet, if_neg he, ih]
      constructor
      · rintro (h | h)
        · exact absurd h.symm he
        · exact h
      · intro h
        right
        exact h

theorem dictSet_keys_nodup {β : Type} (d : List (String × β)) (k : String)
    (v : β) (h : (d.map Prod.fst).Nodup) :
    ((dictSet d k v).map Prod.fst).Nodup := by
  rcases ho : dictGet d k with _ | v2
  · rw [dictSet_keys_of_isNone d k v ho]
    refine List.Nodup.append h (List.nodup_singleton k) ?_
    intro a ha hb
    rw [List.mem_singleton] at hb
    subst hb
    rw [mem_keys_iff, ho] at ha
    simp at ha
  · rw [dictSet_keys_of_isSome d k v (by simp [ho])]
    exact h

theorem dictGet_mem {β : Type} {d : List (String × β)} {n : String} {v : β}
    (h : dictGet d n = some v) : (n, v) ∈ d := by
  induction d with
  | nil => simp [dictGet] at h
  | cons e rest ih =>
    by_cases he : e.1 = n
    · simp only [dictGet, if_pos he] at h
      cases h
      have hx : (n, e.2) = e := by
        cases e
        simp only at he
        rw [he]
      rw [hx]
      exact List.mem_cons_self _ _
    · simp only [dictGet, if_neg he] at h
      exact List.mem_cons_of_mem _ (ih h)

theorem mem_dictGet_nodup {β : Type} {d : List (String × β)} {n : String}
    {v : β} (hnd : (d.map Prod.fst).Nodup) (h : (n, v) ∈ d) :
    dictGet d n = some v := by
  induction d with
  | nil => simp at h
  | cons e rest ih =>
    simp only [List.map_cons, List.nodup_cons] at hnd
    rcases List.mem_cons.1 h with h2 | h2
    · rw [← h2]
      simp [dictGet]
    · have hne : e.1 ≠ n := by
        intro he
        exact hnd.1 (he ▸ (List.mem_map.2 ⟨(n, v), h2, rfl⟩))
      simp only [dictGet, if_neg hne]
      exact ih hnd.2 h2

theorem dictModify_keys {β : Type} (d : List (String × β)) (k : String)
    (f : β → β) : (dictModify d k f).map Prod.fst = d.map Prod.fst := by
  induction d with
  | nil => simp [dictModify]
  | cons e rest ih =>
    by_cases he : e.1 = k
    · simp [dictModify, he]
    · simp [dictModify, he, ih]

theorem dictGet_dictModify_self {β : Type} (d : List (String × β)) (k : String)
    (f : β → β) : dictGet (dictModify d k f) k = (dictGet d k).map f := by
  induction d with
  | nil => simp [dictGet, dictModify]
  | cons e rest ih =>
    by_cases he : e.1 = k
    · simp [dictGet, dictModify, he]
    · simp [dictGet, dictModify, he, ih]

theorem dictGet_dictModify_ne {β : Type} (d : List (String × β))
    (k k2 : String) (f : β → β) (h : k2 ≠ k) :
    dictGet (dictModify d k f) k2 = dictGet d k2 := by
  induction d with
  | nil => simp [dictGet, dictModify]
  | cons e rest ih =>
    by_cases he : e.1 = k
    · subst he
      simp only [dictModify, if_pos rfl, dictGet]
      rw [if_neg (fun hx : e.1 = k2 => h hx.symm),
        if_neg (fun hx : e.1 = k2 => h hx.symm)]
    · simp only [dictModify, if_neg he, dictGet]
      by_cases he2 : e.1 = k2 <;> simp [he2, ih]

theorem dictModifyE_eq {β : Type} (d : List (String × β)) (k : String)
    (f : β → β) :
    dictModifyE d k f =
      if (dictGet d k).isSome then some (dictModify d k f) else none := by
  induction d with
  | nil => simp [dictGet, dictModifyE]
  | cons e rest ih =>
    by_cases he : e.1 = k
    · simp [dictGet, dictModifyE, dictModify, he]
    · simp only [dictModifyE, if_neg he, ih, dictGet, dictModify]
      by_cases hs : (dictGet rest k).isSome <;> simp [hs]

/-! ### String comparison lemmas -/

theorem charsLt_irrefl (l : List Char) : charsLt l l = false := by
  induction l with
  | nil => rfl
  | cons a as ih => simp [charsLt, lt_irrefl, ih]

theorem pyStrLt_irrefl (a : String) : pyStrLt a a = false :=
  charsLt_irrefl a.data

theorem charsLt_asymm {l1 l2 : List Char} (h : charsLt l1 l2 = true) :
    charsLt l2 l1 = false := by
  induction l1 generalizing l2 with
  | nil =>
    cases l2 with
    | nil => simp [charsLt]
    | cons b bs => simp [charsLt]
  | cons a as ih =>
    cases l2 with
    | nil => simp [charsLt] at h
    | cons b bs =>
      by_cases hab : a < b
      · simp [charsLt, hab, not_lt_of_gt hab, ne_of_gt hab]
      · by_cases hba : b < a
        · simp [charsLt, hab, hba] at h
        · have hx : ¬b < a := hba
          simp only [charsLt, if_neg hab, if_neg hba] at h
          simp [charsLt, hab, hba, ih h]

theorem charsLt_trichotomy {l1 l2 : List Char} (h1 : charsLt l1 l2 = false)
    (h2 : charsLt l2 l1 = false) : l1 = l2 := by
  induction l1 generalizing l2 with
  | nil =>
    cases l2 with
    | nil => rfl
    | cons b bs => simp [charsLt] at h1
  | cons a as ih =>
    cases l2 with
    | nil => simp [charsLt] at h2
    | cons b bs =>
      by_cases hab : a < b
      · simp [charsLt, hab] at h1
      · by_cases hba : b < a
        · simp [charsLt, hba] at h2
        · have hchar : a = b := le_antisymm (le_of_not_lt hba) (le_of_not_lt hab)
          simp only [charsLt, if_neg hab, if_neg hba] at h1
          simp only [charsLt, if_neg hba, if_neg hab] at h2
          rw [hchar, ih h1 h2]

theorem pyStrLt_total_of_ne {a b : String} (h : a ≠ b) :
    pyStrLt a b = true ∨ pyStrLt b a = true := by
  by_cases h1 : pyStrLt a b = true
  · left; exact h1
  · right
    by_cases h2 : pyStrLt b a = true
    · exact h2
    · exfalso
      apply h
      have hd : a.data = b.data :=
        charsLt_trichotomy (Bool.not_eq_true _ ▸ h1) (Bool.not_eq_true _ ▸ h2)
      cases a with
      | mk d1 =>
        cases b with
        | mk d2 =>
          simp only at hd
          rw [hd]

theorem pyStrLt_asymm {a b : String} (h : pyStrLt a b = true) :
    pyStrLt b a = false :=
  charsLt_asymm h

theorem pyStrLt_ne {a b : String} (h : pyStrLt a b = true) : a ≠ b := by
  intro he
  rw [he, pyStrLt_irrefl] at h
  exact Bool.false_ne_true h

/-! ### Characterization of the supporter buckets -/

theorem so_fold_get (l : List (String × String))
    (acc : List (String × List String)) (n : String) :
    dictGet (l.foldl soStep acc) n =
      (dictGet acc n).map
        (fun v => v ++ (l.filter (fun e => e.2 == n)).map Prod.fst) := by
  induction l generalizing acc with
  | nil =>
    rw [List.foldl_nil]
    cases hx : dictGet acc n <;> simp [hx]
  | cons e rest ih =>
    rw [List.foldl_cons, ih]
    by_cases hn : e.2 = n
    · subst hn
      rcases hx : dictGet acc e.2 with _ | v
      · have hstep : soStep acc e = acc := by
          simp [soStep, hx]
        rw [hstep, hx]
        simp
      · have hstep : soStep acc e = dictModify acc e.2 (fun ls => ls ++ [e.1]) := by
          simp [soStep, hx]
        rw [hstep, dictGet_dictModify_self, hx]
        simp
    · have hget : dictGet (soStep acc e) n = dictGet acc n := by
        unfold soStep
        split
        · exact dictGet_dictModify_ne _ _ _ _ (fun hx => hn hx.symm)
        · rfl
      rw [hget, List.filter_cons]
      simp [hn]

theorem so_fold_keys (l : List (String × String))
    (acc : List (String × List String)) :
    (l.foldl soStep acc).map Prod.fst = acc.map Prod.fst := by
  induction l generalizing acc with
  | nil => rfl
  | cons e rest ih =>
    rw [List.foldl_cons, ih]
    unfold soStep
    split
    · exact dictModify_keys _ _ _
    · rfl

theorem dictGet_initBuckets (ps : List (String × Player)) (n : String) :
    dictGet (ps.map (fun e => (e.1, ([] : List String)))) n =
      (dictGet ps n).map (fun _ => ([] : List String)) := by
  induction ps with
  | nil => simp [dictGet]
  | cons e rest ih =>
    by_cases he : e.1 = n
    · simp [dictGet, he]
    · simp [dictGet, he, ih]

theorem buildSupportersOf_get (ps : List (String × Player))
    (supports : List (String × String)) (n : String) :
    dictGet (buildSupportersOf ps supports) n =
      (dictGet ps n).map (fun _ => supportersReceived supports n) := by
  unfold buildSupportersOf
  rw [so_fold_get, dictGet_initBuckets]
  cases dictGet ps n <;> simp [supportersReceived]

theorem buildSupportersOf_keys (ps : List (String × Player))
    (supports : List (String × String)) :
    (buildSupportersOf ps supports).map Prod.fst = ps.map Prod.fst := by
  unfold buildSupportersOf
  rw [so_fold_keys, List.map_map]
  rfl

theorem clearSupported_get (ps : List (String × Player)) (n : String) :
    dictGet (clearSupported ps) n =
      (dictGet ps n).map (fun pl => { pl with supported_you_last_round := [] }) := by
  induction ps with
  | nil => simp [dictGet, clearSupported]
  | cons e rest ih =>
    by_cases he : e.1 = n
    · simp [dictGet, clearSupported, he]
    · simpa [dictGet, clearSupported, he] using ih

theorem clearSupported_keys (ps : List (String × Player)) :
    (clearSupported ps).map Prod.fst = ps.map Prod.fst := by
  unfold clearSupported
  rw [List.map_map]
  rfl

/-! ### Scoring rule characterizations -/

theorem addScore_zero (pl : Player) : addScore 0 pl = pl := by
  cases pl
  simp [addScore]

theorem addScore_addScore (a b : Int) (pl : Player) :
    addScore b (addScore a pl) = addScore (a + b) pl := by
  cases pl
  simp [addScore]
  omega

theorem isSome_of_keys_eq {β : Type} {d1 d2 : List (String × β)}
    (hk : d1.map Prod.fst = d2.map Prod.fst) {k : String}
    (h : (dictGet d2 k).isSome) : (dictGet d1 k).isSome := by
  rw [← mem_keys_iff] at h ⊢
  rw [hk]
  exact h

theorem r1_fold (l : List (String × List String)) (ps : List (String × Player))
    (hnd : (l.map Prod.fst).Nodup)
    (h : ∀ e ∈ l, e.2 ≠ [] → (dictGet ps e.1).isSome) :
    ∃ ps2, l.foldl r1Step (some ps) = some ps2 ∧
      ps2.map Prod.fst = ps.map Prod.fst ∧
      ∀ n, dictGet ps2 n = (dictGet ps n).map (r1Upd (dictGet l n)) := by
  induction l generalizing ps with
  | nil =>
    refine ⟨ps, rfl, rfl, fun n => ?_⟩
    cases dictGet ps n <;> simp [dictGet, r1Upd]
  | cons e rest ih =>
    rw [List.foldl_cons]
    simp only [List.map_cons, List.nodup_cons] at hnd
    by_cases hemp : e.2 = []
    · have hstep : r1Step (some ps) e = some ps := by
        simp [r1Step, hemp]
      rw [hstep]
      obtain ⟨ps2, hfold, hkeys, hchar⟩ :=
        ih ps hnd.2 (fun e2 he2 => h e2 (List.mem_cons_of_mem _ he2))
      refine ⟨ps2, hfold, hkeys, fun n => ?_⟩
      rw [hchar n]
      by_cases hn : e.1 = n
      · have hrest : dictGet rest n = none := by
          rcases hx : dictGet rest n with _ | v
          · rfl
          · exact absurd ((mem_keys_iff rest n).2 (by simp [hx])) (hn ▸ hnd.1)
        rw [hrest, show dictGet (e :: rest) n = some e.2 by simp [dictGet, hn],
          hemp]
        cases dictGet ps n <;> simp [r1Upd]
      · rw [show dictGet (e :: rest) n = dictGet rest n by simp [dictGet, hn]]
    · have hsome := h e (List.mem_cons_self _ _) hemp
      have hstep : r1Step (some ps) e =
          dictModifyE ps e.1 (fun pl =>
            { pl with score := pl.score + (e.2.length : Int)
                      supported_you_last_round := e.2 }) := by
        simp [r1Step, hemp]
      rw [hstep, dictModifyE_eq, if_pos hsome]
      have hkeys1 : (dictModify ps e.1 (fun pl =>
          { pl with score := pl.score + (e.2.length : Int)
                    supported_you_last_round := e.2 })).map Prod.fst =
          ps.map Prod.fst := dictModify_keys _ _ _
      obtain ⟨ps2, hfold, hkeys, hchar⟩ :=
        ih (dictModify ps e.1 _) hnd.2
          (fun e2 he2 hne =>
            isSome_of_keys_eq hkeys1 (h e2 (List.mem_cons_of_mem _ he2) hne))
      refine ⟨ps2, hfold, hkeys.trans hkeys1, fun n => ?_⟩
      rw [hchar n]
      by_cases hn : e.1 = n
      · have hrest : dictGet rest n = none := by
          rcases hx : dictGet rest n with _ | v
          · rfl
          · exact absurd ((mem_keys_iff rest n).2 (by simp [hx])) (hn ▸ hnd.1)
        rw [hrest, show dictGet (e :: rest) n = some e.2 by simp [dictGet, hn],
          hn, dictGet_dictModify_self]
        cases dictGet ps n <;> simp [r1Upd, hemp]
      · rw [show dictGet (e :: rest) n = dictGet rest n by simp [dictGet, hn],
          dictGet_dictModify_ne _ _ _ _ (fun hx => hn hx.symm)]

theorem subOne_eq (pl : Player) :
    { pl with score := pl.score - 1 } = addScore (-1) pl := by
  cases pl
  simp [addScore]
  omega

theorem r2_fold (supports l : List (String × String))
    (ps : List (String × Player))
    (h : ∀ e ∈ l, pyStrLt e.1 e.2 = true → dictGet supports e.2 = some e.1 →
      (dictGet ps e.1).isSome ∧ (dictGet ps e.2).isSome) :
    ∃ ps2, l.foldl (r2Step supports) (some ps) = some ps2 ∧
      ps2.map Prod.fst = ps.map Prod.fst ∧
      ∀ n, dictGet ps2 n =
        (dictGet ps n).map (addScore (2 * (r2CountL supports l n : Int))) := by
  induction l generalizing ps with
  | nil =>
    refine ⟨ps, rfl, rfl, fun n => ?_⟩
    cases dictGet ps n <;> simp [r2CountL, addScore_zero]
  | cons e rest ih =>
    rw [List.foldl_cons]
    by_cases hcond : pyStrLt e.1 e.2 = true ∧ dictGet supports e.2 = some e.1
    · obtain ⟨hs1, hs2⟩ := h e (List.mem_cons_self _ _) hcond.1 hcond.2
      have hne12 : e.1 ≠ e.2 := pyStrLt_ne hcond.1
      have hstep : r2Step supports (some ps) e =
          (dictModifyE ps e.1 (addScore 2)).bind
            (fun psx => dictModifyE psx e.2 (addScore 2)) := by
        simp only [r2Step, Option.some_bind]
        rw [if_pos hcond]
        rfl
      rw [hstep, dictModifyE_eq, if_pos hs1, Option.some_bind]
      have hs2a : (dictGet (dictModify ps e.1 (addScore 2)) e.2).isSome := by
        rw [dictGet_dictModify_ne _ _ _ _ (fun hx => hne12 hx.symm)]
        exact hs2
      rw [dictModifyE_eq, if_pos hs2a]
      have hkeysb : (dictModify (dictModify ps e.1 (addScore 2)) e.2
          (addScore 2)).map Prod.fst = ps.map Prod.fst := by
        rw [dictModify_keys, dictModify_keys]
      have hpoint : ∀ n,
          dictGet (dictModify (dictModify ps e.1 (addScore 2)) e.2
            (addScore 2)) n =
          (dictGet ps n).map
            (addScore (if e.1 = n ∨ e.2 = n then (2 : Int) else 0)) := by
        intro n
        by_cases hn1 : e.1 = n
        · rw [dictGet_dictModify_ne _ _ _ _
            (fun hx : n = e.2 => hne12 (hn1.trans hx)), ← hn1,
            dictGet_dictModify_self]
          cases dictGet ps e.1 <;> simp [hn1]
        · by_cases hn2 : e.2 = n
          · rw [← hn2, dictGet_dictModify_self,
              dictGet_dictModify_ne _ _ _ _ (fun hx : e.2 = e.1 => hne12 hx.symm)]
            cases dictGet ps e.2 <;> simp [hn2]
          · rw [dictGet_dictModify_ne _ _ _ _ (fun hx => hn2 hx.symm),
              dictGet_dictModify_ne _ _ _ _ (fun hx => hn1 hx.symm)]
            cases dictGet ps n <;> simp [hn1, hn2, addScore_zero]
      obtain ⟨ps2, hfold, hkeys, hchar⟩ :=
        ih (dictModify (dictModify ps e.1 (addScore 2)) e.2 (addScore 2))
          (fun e2 he2 h1 h2 =>
            ⟨isSome_of_keys_eq hkeysb
                (h e2 (List.mem_cons_of_mem _ he2) h1 h2).1,
             isSome_of_keys_eq hkeysb
                (h e2 (List.mem_cons_of_mem _ he2) h1 h2).2⟩)
      refine ⟨ps2, hfold, hkeys.trans hkeysb, fun n => ?_⟩
      rw [hchar n, hpoint n]
      have hcnt : r2CountL supports (e :: rest) n =
          (if e.1 = n ∨ e.2 = n then 1 else 0) + r2CountL supports rest n := by
        unfold r2CountL
        rw [List.filter_cons]
        by_cases hn : e.1 = n ∨ e.2 = n
        · have hb : (pyStrLt e.1 e.2 && (dictGet supports e.2 == some e.1) &&
              (e.1 == n || e.2 == n)) = true := by
            rw [Bool.and_eq_true, Bool.and_eq_true, Bool.or_eq_true,
              beq_iff_eq, beq_iff_eq, beq_iff_eq]
            exact ⟨⟨hcond.1, hcond.2⟩, hn⟩
          simp [hb, hn, Nat.add_comm]
        · have hn1 : ¬e.1 = n := fun hx => hn (Or.inl hx)
          have hn2 : ¬e.2 = n := fun hx => hn (Or.inr hx)
          simp [hn1, hn2, hn]
      rcases hx : dictGet ps n with _ | pl
      · simp
      · simp only [Option.map_some']
        rw [addScore_addScore, hcnt]
        cases pl
        simp [addScore]
        split_ifs <;> ring
    · have hstep : r2Step supports (some ps) e = some ps := by
        simp only [r2Step, Option.some_bind]
        rw [if_neg hcond]
      rw [hstep]
      obtain ⟨ps2, hfold, hkeys, hchar⟩ :=
        ih ps (fun e2 he2 h1 h2 => h e2 (List.mem_cons_of_mem _ he2) h1 h2)
      refine ⟨ps2, hfold, hkeys, fun n => ?_⟩
      rw [hchar n]
      have hcnt : r2CountL supports (e :: rest) n = r2CountL supports rest n := by
        unfold r2CountL
        rw [List.filter_cons]
        have hb : (pyStrLt e.1 e.2 && (dictGet supports e.2 == some e.1) &&
            (e.1 == n || e.2 == n)) = false := by
          by_cases h1 : pyStrLt e.1 e.2 = true
          · have h2 : dictGet supports e.2 ≠ some e.1 :=
              fun hx => hcond ⟨h1, hx⟩
            simp [h2]
          · simp only [Bool.not_eq_true] at h1
            simp [h1]
        simp [hb]
      rw [hcnt]

theorem r3_fold (supports l : List (String × String))
    (ps : List (String × Player))
    (h : ∀ e ∈ l, dictGet supports e.2 ≠ some e.1 → (dictGet ps e.1).isSome) :
    ∃ ps2, l.foldl (r3Step supports) (some ps) = some ps2 ∧
      ps2.map Prod.fst = ps.map Prod.fst ∧
      ∀ n, dictGet ps2 n =
        (dictGet ps n).map (addScore (-(r3CountL supports l n : Int))) := by
  induction l generalizing ps with
  | nil =>
    refine ⟨ps, rfl, rfl, fun n => ?_⟩
    cases dictGet ps n <;> simp [r3CountL, addScore_zero]
  | cons e rest ih =>
    rw [List.foldl_cons]
    by_cases hcond : dictGet supports e.2 = some e.1
    · have hstep : r3Step supports (some ps) e = some ps := by
        simp [r3Step, hcond]
      rw [hstep]
      obtain ⟨ps2, hfold, hkeys, hchar⟩ :=
        ih ps (fun e2 he2 h1 => h e2 (List.mem_cons_of_mem _ he2) h1)
      refine ⟨ps2, hfold, hkeys, fun n => ?_⟩
      rw [hchar n]
      have hcnt : r3CountL supports (e :: rest) n = r3CountL supports rest n := by
        unfold r3CountL
        rw [List.filter_cons]
        simp [hcond]
      rw [hcnt]
    · have hsome := h e (List.mem_cons_self _ _) hcond
      have hstep : r3Step supports (some ps) e =
          dictModifyE ps e.1 (addScore (-1)) := by
        simp only [r3Step, Option.some_bind]
        rw [if_pos hcond]
        rfl
      rw [hstep, dictModifyE_eq, if_pos hsome]
      have hkeysb : (dictModify ps e.1 (addScore (-1))).map Prod.fst =
          ps.map Prod.fst := dictModify_keys _ _ _
      have hpoint : ∀ n, dictGet (dictModify ps e.1 (addScore (-1))) n =
          (dictGet ps n).map
            (addScore (if e.1 = n then (-1 : Int) else 0)) := by
        intro n
        by_cases hn1 : e.1 = n
        · rw [← hn1, dictGet_dictModify_self]
          cases dictGet ps e.1 <;> simp [hn1]
        · rw [dictGet_dictModify_ne _ _ _ _ (fun hx => hn1 hx.symm)]
          cases dictGet ps n <;> simp [hn1, addScore_zero]
      obtain ⟨ps2, hfold, hkeys, hchar⟩ :=
        ih (dictModify ps e.1 (addScore (-1)))
          (fun e2 he2 h1 =>
            isSome_of_keys_eq hkeysb (h e2 (List.mem_cons_of_mem _ he2) h1))
      refine ⟨ps2, hfold, hkeys.trans hkeysb, fun n => ?_⟩
      rw [hchar n, hpoint n]
      have hcnt : r3CountL supports (e :: rest) n =
          (if e.1 = n then 1 else 0) + r3CountL supports rest n := by
        unfold r3CountL
        rw [List.filter_cons]
        by_cases hn : e.1 = n
        · have hb : (e.1 == n && !(dictGet supports e.2 == some e.1)) = true := by
            simp [hn, hn ▸ hcond]
          rw [hb]
          simp [hn]
          omega
        · have hb : (e.1 == n && !(dictGet supports e.2 == some e.1)) = false := by
            simp [hn]
          rw [hb]
          simp [hn]
      rcases hx : dictGet ps n with _ | pl
      · simp
      · simp only [Option.map_some']
        rw [addScore_addScore, hcnt]
        cases pl
        simp [addScore]
        split_ifs <;> ring

theorem applyRule4_get (ps : List (String × Player))
    (supports : List (String × String)) (n : String) :
    dictGet (applyRule4 ps supports) n =
      (dictGet ps n).map
        (fun pl =>
          if (dictGet supports n).isNone then addScore (-1) pl else pl) := by
  induction ps with
  | nil => simp [applyRule4, dictGet]
  | cons e rest ih =>
    unfold applyRule4 at ih ⊢
    rw [List.map_cons]
    by_cases he : e.1 = n
    · by_cases hnone : (dictGet supports e.1).isNone
      · rw [if_pos hnone]
        simp only [dictGet, if_pos he]
        rw [Option.map_some', if_pos (he ▸ hnone), subOne_eq]
      · rw [if_neg hnone]
        simp only [dictGet, if_pos he]
        rw [Option.map_some', if_neg (he ▸ hnone)]
    · by_cases hnone : (dictGet supports e.1).isNone
      · rw [if_pos hnone]
        simp only [dictGet, if_neg he]
        exact ih
      · rw [if_neg hnone]
        simp only [dictGet, if_neg he]
        exact ih

theorem applyRule4_keys (ps : List (String × Player))
    (supports : List (String × String)) :
    (applyRule4 ps supports).map Prod.fst = ps.map Prod.fst := by
  induction ps with
  | nil => rfl
  | cons e rest ih =>
    unfold applyRule4 at ih ⊢
    simp only [List.map_cons]
    rw [ih]
    congr 1
    split <;> rfl

/-! ### Round resolution: shape and full characterization -/

theorem advance_round_shape {s s2 : GameState} {sb : Scoreboard}
    (h : advance_round s = some (s2, sb)) :
    s2.messages = s.messages ∧ s2.players_by_private = s.players_by_private ∧
      s2.current_round = s.current_round + 1 ∧ s2.current_supports = [] ∧
      sb.round_number = s.current_round := by
  simp only [advance_round] at h
  rw [Option.bind_eq_some] at h
  obtain ⟨ps1, h1, h⟩ := h
  rw [Option.bind_eq_some] at h
  obtain ⟨ps2, h2, h⟩ := h
  rw [Option.map_eq_some'] at h
  obtain ⟨ps3, h3, h⟩ := h
  injection h with h4 h5
  subst h4
  subst h5
  exact ⟨rfl, rfl, rfl, rfl, rfl⟩

theorem advance_round_spec (s : GameState)
    (hnd : (s.players_by_name.map Prod.fst).Nodup)
    (hsup : ∀ e ∈ s.current_supports,
      (dictGet s.players_by_name e.1).isSome) :
    ∃ s2 sb, advance_round s = some (s2, sb) ∧
      s2.players_by_name.map Prod.fst = s.players_by_name.map Prod.fst ∧
      s2.messages = s.messages ∧
      s2.players_by_private = s.players_by_private ∧
      s2.current_round = s.current_round + 1 ∧
      s2.current_supports = [] ∧
      ∀ n, dictGet s2.players_by_name n =
        (dictGet s.players_by_name n).map (fun pl =>
          { pl with
            score := pl.score
              + ((supportersReceived s.current_supports n).length : Int)
              + 2 * (r2CountL s.current_supports s.current_supports n : Int)
              - (r3CountL s.current_supports s.current_supports n : Int)
              - (if (dictGet s.current_supports n).isNone then 1 else 0)
            supported_you_last_round :=
              supportersReceived s.current_supports n }) := by
  have hso_keys := buildSupportersOf_keys s.players_by_name s.current_supports
  have hps0_keys := clearSupported_keys s.players_by_name
  have hnd_so : ((buildSupportersOf s.players_by_name
      s.current_supports).map Prod.fst).Nodup := by
    rw [hso_keys]; exact hnd
  obtain ⟨ps1, fold1, keys1, char1⟩ :=
    r1_fold (buildSupportersOf s.players_by_name s.current_supports)
      (clearSupported s.players_by_name) hnd_so
      (fun e he _ => by
        have hk : e.1 ∈ (buildSupportersOf s.players_by_name
            s.current_supports).map Prod.fst := List.mem_map.2 ⟨e, he, rfl⟩
        rw [hso_keys, mem_keys_iff] at hk
        exact isSome_of_keys_eq hps0_keys hk)
  have h1 : applyRule1 (clearSupported s.players_by_name)
      (buildSupportersOf s.players_by_name s.current_supports) = some ps1 :=
    fold1
  have hkeys1 : ps1.map Prod.fst = s.players_by_name.map Prod.fst :=
    keys1.trans hps0_keys
  obtain ⟨ps2c, fold2, keys2, char2⟩ :=
    r2_fold s.current_supports s.current_supports ps1
      (fun e he hlt hrec =>
        ⟨isSome_of_keys_eq hkeys1 (hsup e he),
         isSome_of_keys_eq hkeys1 (hsup (e.2, e.1) (dictGet_mem hrec))⟩)
  have h2 : applyRule2 ps1 s.current_supports = some ps2c := fold2
  have hkeys2 : ps2c.map Prod.fst = s.players_by_name.map Prod.fst :=
    keys2.trans hkeys1
  obtain ⟨ps3c, fold3, keys3, char3⟩ :=
    r3_fold s.current_supports s.current_supports ps2c
      (fun e he _ => isSome_of_keys_eq hkeys2 (hsup e he))
  have h3 : applyRule3 ps2c s.current_supports = some ps3c := fold3
  have hkeys3 : ps3c.map Prod.fst = s.players_by_name.map Prod.fst :=
    keys3.trans hkeys2
  have hadv : advance_round s = some
      ({ s with
          players_by_name := applyRule4 ps3c s.current_supports
          current_round := s.current_round + 1
          current_supports := [] },
       { round_number := s.current_round
         scores := (sortNames ((applyRule4 ps3c
             s.current_supports).map Prod.fst)).filterMap (fun n =>
           (dictGet (applyRule4 ps3c s.current_supports) n).map (fun pl =>
             { player_name := n, score := pl.score
               supported := dictGet s.current_supports n
               supporters_this_round :=
                 (dictGet (buildSupportersOf s.players_by_name
                   s.current_supports) n).getD [] })) }) := by
    simp only [advance_round]
    rw [h1, Option.some_bind, h2, Option.some_bind, h3, Option.map_some']
  refine ⟨_, _, hadv, ?_, rfl, rfl, rfl, rfl, ?_⟩
  · exact (applyRule4_keys ps3c s.current_supports).trans hkeys3
  · intro n
    rw [show dictGet ({ s with
        players_by_name := applyRule4 ps3c s.current_supports
        current_round := s.current_round + 1
        current_supports := [] } : GameState).players_by_name n =
      dictGet (applyRule4 ps3c s.current_supports) n from rfl]
    rw [applyRule4_get, char3 n, char2 n, char1 n, clearSupported_get,
      buildSupportersOf_get]
    rcases hx : dictGet s.players_by_name n with _ | pl
    · simp
    · simp only [Option.map_some']
      by_cases hsr : supportersReceived s.current_supports n = []

      · rw [hsr]
        cases pl
        simp [r1Upd, addScore, hsr]
        split_ifs <;> ring_nf
      · cases pl
        simp [r1Upd, addScore, hsr]
        split_ifs <;> ring_nf

/-! ### Inversion of the public operations -/

theorem register_player_ok {s s2 : GameState} {nm fid : String} {st : Status}
    (h : register_player s nm fid = .ok (s2, st)) :
    dictGet s.players_by_name nm = none ∧
    s2 = { s with
      players_by_name := dictSet s.players_by_name nm
        { name := nm, private_id := fid, score := 0
          supported_you_last_round := [] }
      players_by_private := dictSet s.players_by_private fid nm } ∧
    st = build_status s2
      { name := nm, private_id := fid, score := 0
        supported_you_last_round := [] } := by
  simp only [register_player] at h
  by_cases hx : (dictGet s.players_by_name nm).isSome
  · rw [if_pos hx] at h
    cases h
  · rw [if_neg hx] at h
    injection h with h2
    injection h2 with ha hb
    exact ⟨Option.not_isSome_iff_eq_none.1 hx, ha.symm, by rw [← ha, ← hb]⟩

theorem get_status_ok {s s2 : GameState} {pid : String} {st : Status}
    (h : get_status s pid = .ok (s2, st)) :
    ∃ p, getPlayerByPrivate s pid = some p ∧ s2 = s ∧
      st = build_status s p := by
  simp only [get_status] at h
  rcases hg : getPlayerByPrivate s pid with _ | p <;> rw [hg] at h
  · cases h
  · injection h with h2
    injection h2 with ha hb
    exact ⟨p, rfl, ha.symm, hb.symm⟩

theorem send_message_ok {s s2 : GameState} {pid r m : String} {st : Status}
    (h : send_message s pid r m = .ok (s2, st)) :
    ∃ sender recipient, getPlayerByPrivate s pid = some sender ∧
      dictGet s.players_by_name r = some recipient ∧
      s2 = { s with messages := s.messages ++
        [{ from_player := sender.name, to_player := recipient.name
           message := m, round_number := s.current_round }] } ∧
      st = build_status s2 sender := by
  simp only [send_message] at h
  rcases hg : getPlayerByPrivate s pid with _ | sender <;> rw [hg] at h
  · cases h
  · rcases hd : dictGet s.players_by_name r with _ | recipient <;> rw [hd] at h
    · cases h
    · injection h with h2
      injection h2 with ha hb
      exact ⟨sender, recipient, rfl, rfl, ha.symm, by rw [← ha, ← hb]⟩

theorem register_support_ok {s s2 : GameState} {pid t : String} {st : Status}
    (h : register_support s pid t = .ok (s2, st)) :
    ∃ sup, getPlayerByPrivate s pid = some sup ∧ t ≠ sup.name ∧
      (dictGet s.players_by_name t).isSome ∧
      s2 = { s with
        current_supports := dictSet s.current_supports sup.name t } := by
  simp only [register_support] at h
  rcases hg : getPlayerByPrivate s pid with _ | sup <;> simp only [hg] at h
  · exact Except.noConfusion h
  · by_cases ht : t = sup.name
    · rw [if_pos ht] at h
      exact Except.noConfusion h
    · rw [if_neg ht] at h
      rcases hd : dictGet s.players_by_name t with _ | q <;> simp only [hd] at h
      · exact Except.noConfusion h
      · injection h with h2
        injection h2 with ha hb
        exact ⟨sup, rfl, ht, rfl, ha.symm⟩

/-- Under the invariant, a token lookup returns the player owning that
token, stored in the registry under the player's own name. -/
theorem getPlayerByPrivate_inv {s : GameState} {pid : String} {p : Player}
    (hinv : Inv s) (hg : getPlayerByPrivate s pid = some p) :
    p.private_id = pid ∧ dictGet s.players_by_name p.name = some p := by
  unfold getPlayerByPrivate at hg
  rcases hpp : dictGet s.players_by_private pid with _ | n <;> rw [hpp] at hg
  · cases hg
  · rw [Option.some_bind] at hg
    obtain ⟨q, hq, hqid⟩ := hinv.2.1 (pid, n) (dictGet_mem hpp)
    have hname : p.name = n := hinv.2.2.1 (n, p) (dictGet_mem hg)
    rw [hg] at hq
    injection hq with hq
    constructor
    · rw [← hq] at hqid
      exact hqid
    · rw [hname]
      exact hg

/-! ### The invariant holds in every reachable state -/

theorem reachable_inv {s : GameState} (h : Reachable s) : Inv s := by
  induction h with
  | init =>
    refine ⟨?_, ?_, ?_, ?_, ?_⟩ <;> simp [GameState.init]
  | register s s2 nm fid st hprev heq ih =>
    obtain ⟨hnone, hs2, hst⟩ := register_player_ok heq
    subst hs2
    obtain ⟨ih1, ih2, ih3, ih4, ih5⟩ := ih
    refine ⟨?_, ?_, ?_, dictSet_keys_nodup _ _ _ ih4, ih5⟩
    · intro e he
      exact ⟨dictGet_isSome_dictSet _ _ _ _ (ih1 e he).1,
             dictGet_isSome_dictSet _ _ _ _ (ih1 e he).2⟩
    · intro e he
      rcases mem_dictSet he with hold | hnew
      · obtain ⟨p, hp, hpid⟩ := ih2 e hold
        have hne : e.2 ≠ nm := fun hx => by
          rw [hx, hnone] at hp
          cases hp
        refine ⟨p, ?_, hpid⟩
        rw [dictGet_dictSet_ne _ _ _ _ hne]
        exact hp
      · rw [hnew]
        exact ⟨_, dictGet_dictSet_self _ _ _, rfl⟩
    · intro e he
      rcases mem_dictSet he with hold | hnew
      · exact ih3 e hold
      · rw [hnew]
  | status s s2 pid st hprev heq ih =>
    obtain ⟨p, hg, hs2, hst⟩ := get_status_ok heq
    subst hs2
    exact ih
  | message s s2 pid r m st hprev heq ih =>
    obtain ⟨sender, recipient, hg, hd, hs2, hst⟩ := send_message_ok heq
    subst hs2
    exact ih
  | support s s2 pid t st hprev heq ih =>
    obtain ⟨sup, hg, hne, ht, hs2⟩ := register_support_ok heq
    subst hs2
    obtain ⟨ih1, ih2, ih3, ih4, ih5⟩ := ih
    refine ⟨?_, ih2, ih3, ih4, dictSet_keys_nodup _ _ _ ih5⟩
    intro e he
    rcases mem_dictSet he with hold | hnew
    · exact ih1 e hold
    · rw [hnew]
      refine ⟨?_, ht⟩
      have hsup := getPlayerByPrivate_inv ⟨ih1, ih2, ih3, ih4, ih5⟩ hg
      rw [hsup.2]
      rfl
  | advance s s2 sb hprev heq ih =>
    obtain ⟨ih1, ih2, ih3, ih4, ih5⟩ := ih
    obtain ⟨s2x, sbx, hadv, hkeys, hmsg, hpriv, hround, hsupports, hchar⟩ :=
      advance_round_spec s ih4 (fun e he => (ih1 e he).1)
    rw [heq] at hadv
    injection hadv with hadv
    injection hadv with hax hbx
    subst hax
    have hnd2 : (s2.players_by_name.map Prod.fst).Nodup := by
      rw [hkeys]
      exact ih4
    refine ⟨?_, ?_, ?_, hnd2, ?_⟩
    · intro e he
      rw [hsupports] at he
      cases he
    · intro e he
      rw [hpriv] at he
      obtain ⟨p, hp, hpid⟩ := ih2 e he
      rw [hchar e.2, hp]
      exact ⟨_, rfl, hpid⟩
    · intro e he
      have hme := mem_dictGet_nodup hnd2 he
      rw [hchar e.1] at hme
      rcases hx : dictGet s.players_by_name e.1 with _ | pl <;> rw [hx] at hme
      · cases hme
      · rw [Option.map_some'] at hme
        injection hme with hme
        rw [← hme]
        exact ih3 (e.1, pl) (dictGet_mem hx)
    · rw [hsupports]
      simp

/-! ### Dispatcher and status helpers -/

theorem ok_bind {α β : Type} (a : α) (f : α → Except String β) :
    (Except.ok a : Except String α) >>= f = f a := rfl

theorem frameTool_spec {s s2 : GameState}
    {r : Except String (GameState × Status)} {content : List ContentItem}
    {isErr : Bool} (h : frameTool s r = (s2, .result content isErr)) :
    (isErr = false → ∃ res, ContentItem.json res ∈ content ∧
      ContentItem.text (dumps res) ∈ content) ∧
    (isErr = true → (∃ msg, ContentItem.text msg ∈ content) ∧
      hasJsonItem content = false) := by
  rcases r with msg | ⟨s3, res⟩
  · simp only [frameTool] at h
    injection h with h1 h2
    injection h2 with hc hi
    subst hc
    subst hi
    refine ⟨fun hf => ?_, fun _ => ⟨⟨_, List.mem_singleton.2 rfl⟩, rfl⟩⟩
    cases hf
  · simp only [frameTool] at h
    injection h with h1 h2
    injection h2 with hc hi
    subst hc
    subst hi
    refine ⟨fun _ => ⟨res, ?_, ?_⟩, fun hf => ?_⟩
    · exact List.mem_cons_self _ _
    · exact List.mem_cons_of_mem _ (List.mem_singleton.2 rfl)
    · cases hf

/-- Every `other_players` entry of a status shows the name and score of a
registered player different from the status owner. -/
theorem build_status_other {s : GameState}
    (hc : ∀ e ∈ s.players_by_name, Player.name e.2 = e.1) (p : Player) :
    OtherOk s (build_status s p) := by
  intro o ho
  simp only [build_status, List.mem_map] at ho
  obtain ⟨e, he, rfl⟩ := ho
  rw [List.mem_filter] at he
  refine ⟨e.2, List.mem_map.2 ⟨e, he.1, rfl⟩, ?_, rfl, rfl⟩
  have hname := hc e he.1
  have hne : (e.1 == p.name) = false := by
    rcases hb : (e.1 == p.name) with _ | _
    · rfl
    · rw [hb] at he
      cases he.2
  intro hx
  have hx2 : e.2.name = p.name := hx
  rw [hname] at hx2
  rw [hx2] at hne
  simp at hne

/-! ### Counting lemmas for the mutual pair claim -/

theorem length_filter_eq_one {α : Type} [DecidableEq α] {l : List α} {x : α}
    {p : α → Bool} (hnd : l.Nodup) (hx : x ∈ l)
    (hp : ∀ a ∈ l, p a = true ↔ a = x) : (l.filter p).length = 1 := by
  induction l with
  | nil => cases hx
  | cons a rest ih =>
    rw [List.nodup_cons] at hnd
    rw [List.filter_cons]
    rcases List.mem_cons.1 hx with hax | hxr
    · have hpa : p a = true := (hp a (List.mem_cons_self _ _)).2 hax.symm
      have hrest : rest.filter p = [] := by
        rw [List.filter_eq_nil_iff]
        intro b hb hpb
        have hbx : b = x := (hp b (List.mem_cons_of_mem _ hb)).1 hpb
        exact hnd.1 ((hbx.trans hax) ▸ hb)
      rw [hpa, if_pos rfl, hrest]
      rfl
    · have hax : a ≠ x := fun hax => hnd.1 (hax ▸ hxr)
      have hpa : p a = false := by
        rcases hb : p a with _ | _
        · rfl
        · exact absurd ((hp a (List.mem_cons_self _ _)).1 hb) hax
      rw [hpa, if_neg Bool.false_ne_true]
      exact ih hnd.2 hxr (fun b hb => hp b (List.mem_cons_of_mem _ hb))

/-- In a ledger with distinct supporter keys that maps `A` to `B` and `B`
to `A` (with `A` distinct from `B`), exactly one entry fires rule 2 for
`A`: the mutual pair is counted once, never twice. -/
theorem mutual_r2Count {sup : List (String × String)} {A B : String}
    (hnd : (sup.map Prod.fst).Nodup) (hAB : dictGet sup A = some B)
    (hBA : dictGet sup B = some A) (hne : A ≠ B) :
    r2CountL sup sup A = 1 := by
  have hndl : sup.Nodup := List.Nodup.of_map _ hnd
  unfold r2CountL
  by_cases hlt : pyStrLt A B = true
  · refine length_filter_eq_one hndl (dictGet_mem hAB) (fun e he => ?_)
    constructor
    · intro hp
      rw [Bool.and_eq_true, Bool.and_eq_true, Bool.or_eq_true,
        beq_iff_eq, beq_iff_eq, beq_iff_eq] at hp
      obtain ⟨⟨hplt, hprec⟩, htouch⟩ := hp
      have hkey := mem_dictGet_nodup hnd he
      rcases htouch with h1 | h2
      · rw [h1] at hkey
        rw [hkey] at hAB
        injection hAB with hAB2
        cases e
        simp only at h1 hAB2
        rw [h1, hAB2]
      · exfalso
        rw [h2] at hprec
        rw [hprec] at hAB
        injection hAB with hAB2
        rw [hAB2, h2] at hplt
        rw [pyStrLt_asymm hlt] at hplt
        exact Bool.false_ne_true hplt
    · intro he2
      rw [he2]
      rw [Bool.and_eq_true, Bool.and_eq_true, Bool.or_eq_true,
        beq_iff_eq, beq_iff_eq, beq_iff_eq]
      exact ⟨⟨hlt, hBA⟩, Or.inl rfl⟩
  · have hlt2 : pyStrLt B A = true := by
      rcases pyStrLt_total_of_ne hne with h1 | h2
      · exact absurd h1 hlt
      · exact h2
    refine length_filter_eq_one hndl (dictGet_mem hBA) (fun e he => ?_)
    constructor
    · intro hp
      rw [Bool.and_eq_true, Bool.and_eq_true, Bool.or_eq_true,
        beq_iff_eq, beq_iff_eq, beq_iff_eq] at hp
      obtain ⟨⟨hplt, hprec⟩, htouch⟩ := hp
      have hkey := mem_dictGet_nodup hnd he
      rcases htouch with h1 | h2
      · exfalso
        rw [h1] at hkey
        rw [hkey] at hAB
        injection hAB with hAB2
        rw [h1, hAB2] at hplt
        exact hlt hplt
      · rw [h2] at hprec
        rw [hprec] at hAB
        injection hAB with hAB2
        cases e
        simp only at h2 hAB2
        rw [h2, hAB2]
    · intro he2
      rw [he2]
      rw [Bool.and_eq_true, Bool.and_eq_true, Bool.or_eq_true,
        beq_iff_eq, beq_iff_eq, beq_iff_eq]
      exact ⟨⟨hlt2, hAB⟩, Or.inr rfl⟩

/-- In such a ledger no entry fires rule 3 against `A`: a supporter in a
mutual pair does not also take the unreciprocated penalty. -/
theorem mutual_r3Count {sup : List (String × String)} {A B : String}
    (hnd : (sup.map Prod.fst).Nodup) (hAB : dictGet sup A = some B)
    (hBA : dictGet sup B = some A) :
    r3CountL sup sup A = 0 := by
  unfold r3CountL
  rw [List.length_eq_zero, List.filter_eq_nil_iff]
  intro e he hp
  rw [Bool.and_eq_true, beq_iff_eq] at hp
  obtain ⟨h1, h2⟩ := hp
  have hkey := mem_dictGet_nodup hnd he
  rw [h1] at hkey
  rw [hkey] at hAB
  injection hAB with hAB2
  rw [hAB2, hBA, h1] at h2
  simp at h2

/-! ### Claims -/

/-- Claim C1, as stated, is false: with players A and B and the single
ledger entry B supports A, player A receives the positive rule-1 delta +1
(one supporter) and nevertheless also receives the rule-4 abstention
delta -1, because A has no ledger entry as a supporter.  The spec's own
scenario (C receives +1 from B and -1 abstention) exhibits the same
combination. -/
theorem C1_counterexample :
    ¬(∀ (ps : List (String × Player)) (sup : List (String × String))
        (n : String), 0 < rule1Delta ps sup n → rule4Delta ps sup n = 0) := by
  intro h
  exact absurd (h psC1 supC1 "A" (by decide)) (by decide)

/-- Claim C1 (amended): what is impossible is the combination the spec's
parenthetical actually describes: a player that has a ledger entry as a
supporter never receives a rule-4 delta, whatever the player set and
ledger snapshot. -/
theorem C1_theorem (ps : List (String × Player))
    (sup : List (String × String)) (n : String)
    (h : (dictGet sup n).isSome) : rule4Delta ps sup n = 0 := by
  have hfalse : (dictGet sup n).isNone = false := by
    rcases hx : dictGet sup n with _ | v
    · rw [hx] at h
      cases h
    · rfl
  unfold rule4Delta scoreAt
  rw [applyRule4_get]
  rcases hy : dictGet ps n with _ | pl <;> simp [hfalse]

/-- Witness for C1: player A of the mutual ledger has an entry and indeed
receives no rule-4 delta. -/
theorem C1_witness :
    (dictGet supMut "A").isSome = true ∧ rule4Delta psC1 supMut "A" = 0 :=
  ⟨by decide, C1_theorem psC1 supMut "A" (by decide)⟩

/-- Claim C3: with A, B, C at score 0 and the ledger mapping A to B and
B to C (C absent), one round advance yields A = -1, B = 0, C = 0. -/
theorem C3_theorem :
    scoreAt stC3.players_by_name "A" = 0 ∧
    scoreAt stC3.players_by_name "B" = 0 ∧
    scoreAt stC3.players_by_name "C" = 0 ∧
    stC3.current_supports = [("A", "B"), ("B", "C")] ∧
    (advance_round stC3).map (fun r =>
      (scoreAt r.1.players_by_name "A", scoreAt r.1.players_by_name "B",
       scoreAt r.1.players_by_name "C")) = some (-1, 0, 0) := by
  refine ⟨rfl, rfl, rfl, rfl, ?_⟩
  decide

/-- Claim C5: a round advance over an empty ledger decreases every
registered player's score by exactly 1, leaves the ledger empty, and
increments the round counter by exactly 1. -/
theorem C5_theorem (s : GameState)
    (hnd : (s.players_by_name.map Prod.fst).Nodup)
    (hempty : s.current_supports = []) :
    ∃ s2 sb, advance_round s = some (s2, sb) ∧
      s2.current_supports = [] ∧
      s2.current_round = s.current_round + 1 ∧
      ∀ n pl, dictGet s.players_by_name n = some pl →
        dictGet s2.players_by_name n = some
          { pl with score := pl.score - 1
                    supported_you_last_round := [] } := by
  obtain ⟨s2, sb, hadv, hkeys, hmsg, hpriv, hround, hsupports, hchar⟩ :=
    advance_round_spec s hnd (by rw [hempty]; intro e he; cases he)
  refine ⟨s2, sb, hadv, hsupports, hround, fun n pl hp => ?_⟩
  rw [hchar n, hp, Option.map_some', hempty]
  cases pl
  simp [supportersReceived, r2CountL, r3CountL, dictGet]

/-- Witness for C5: the two-player state with an empty ledger. -/
theorem C5_witness :
    (sAB.players_by_name.map Prod.fst).Nodup ∧
    (∃ s2 sb, advance_round sAB = some (s2, sb) ∧
      s2.current_supports = [] ∧
      s2.current_round = sAB.current_round + 1 ∧
      ∀ n pl, dictGet sAB.players_by_name n = some pl →
        dictGet s2.players_by_name n = some
          { pl with score := pl.score - 1
                    supported_you_last_round := [] }) :=
  ⟨by decide, C5_theorem sAB (by decide) rfl⟩

/-- Claim C6: in every reachable state, every supporter key and every
target value of the ledger is a registered player name, and round
resolution succeeds (no lookup fails): `advance_round` returns a result
on every reachable state. -/
theorem C6_theorem (s : GameState) (h : Reachable s) :
    (∀ e ∈ s.current_supports,
      (dictGet s.players_by_name e.1).isSome ∧
      (dictGet s.players_by_name e.2).isSome) ∧
    ∃ s2 sb, advance_round s = some (s2, sb) := by
  obtain ⟨i1, i2, i3, i4, i5⟩ := reachable_inv h
  refine ⟨i1, ?_⟩
  obtain ⟨s2, sb, hadv, _⟩ :=
    advance_round_spec s i4 (fun e he => (i1 e he).1)
  exact ⟨s2, sb, hadv⟩

/-- Witness for C6: the reachable two-player state `sAB`. -/
theorem C6_witness :
    (∀ e ∈ sAB.current_supports,
      (dictGet sAB.players_by_name e.1).isSome ∧
      (dictGet sAB.players_by_name e.2).isSome) ∧
    ∃ s2 sb, advance_round sAB = some (s2, sb) :=
  C6_theorem sAB
    (Reachable.register sA sAB "B" "idb" (build_status sAB pB)
      (Reachable.register GameState.init sA "A" "ida" (build_status sA pA)
        Reachable.init rfl)
      rfl)

/-- Claim C4: for a mutual pair (the snapshot maps A to B and B to A,
with A and B distinct and all supporters registered), rule 2 adds exactly
+2 (once, never +4) to each of A and B, and rule 3 charges neither A nor
B the unreciprocated penalty. -/
theorem C4_theorem (ps : List (String × Player))
    (sup : List (String × String)) (A B : String)
    (hnd : (sup.map Prod.fst).Nodup)
    (hAB : dictGet sup A = some B) (hBA : dictGet sup B = some A)
    (hne : A ≠ B) (hreg : ∀ e ∈ sup, (dictGet ps e.1).isSome) :
    ∃ ps2, applyRule2 ps sup = some ps2 ∧
      scoreAt ps2 A = scoreAt ps A + 2 ∧
      scoreAt ps2 B = scoreAt ps B + 2 ∧
      ∃ ps3, applyRule3 ps2 sup = some ps3 ∧
        scoreAt ps3 A = scoreAt ps2 A ∧ scoreAt ps3 B = scoreAt ps2 B := by
  obtain ⟨ps2, fold2, keys2, char2⟩ :=
    r2_fold sup sup ps (fun e he hlt hrec =>
      ⟨hreg e he, hreg (e.2, e.1) (dictGet_mem hrec)⟩)
  have h2 : applyRule2 ps sup = some ps2 := fold2
  have hcA := mutual_r2Count hnd hAB hBA hne
  have hcB := mutual_r2Count hnd hBA hAB hne.symm
  obtain ⟨plA, hplA⟩ : ∃ pl, dictGet ps A = some pl := by
    have hs := hreg (A, B) (dictGet_mem hAB)
    rcases hx : dictGet ps A with _ | pl
    · rw [hx] at hs
      cases hs
    · exact ⟨pl, rfl⟩
  obtain ⟨plB, hplB⟩ : ∃ pl, dictGet ps B = some pl := by
    have hs := hreg (B, A) (dictGet_mem hBA)
    rcases hx : dictGet ps B with _ | pl
    · rw [hx] at hs
      cases hs
    · exact ⟨pl, rfl⟩
  have hsA : scoreAt ps2 A = scoreAt ps A + 2 := by
    unfold scoreAt
    rw [char2 A, hplA, hcA]
    simp [addScore]
  have hsB : scoreAt ps2 B = scoreAt ps B + 2 := by
    unfold scoreAt
    rw [char2 B, hplB, hcB]
    simp [addScore]
  obtain ⟨ps3, fold3, keys3, char3⟩ :=
    r3_fold sup sup ps2 (fun e he _ => isSome_of_keys_eq keys2 (hreg e he))
  have h3 : applyRule3 ps2 sup = some ps3 := fold3
  have hc3A := mutual_r3Count hnd hAB hBA
  have hc3B := mutual_r3Count hnd hBA hAB
  refine ⟨ps2, h2, hsA, hsB, ps3, h3, ?_, ?_⟩
  · unfold scoreAt
    rw [char3 A, hc3A]
    rcases hx : dictGet ps2 A with _ | pl <;> simp [addScore]
  · unfold scoreAt
    rw [char3 B, hc3B]
    rcases hx : dictGet ps2 B with _ | pl <;> simp [addScore]

/-- Witness for C4: the mutual ledger on players A and B. -/
theorem C4_witness :
    (supMut.map Prod.fst).Nodup ∧
    (∃ ps2, applyRule2 psC1 supMut = some ps2 ∧
      scoreAt ps2 "A" = scoreAt psC1 "A" + 2 ∧
      scoreAt ps2 "B" = scoreAt psC1 "B" + 2 ∧
      ∃ ps3, applyRule3 ps2 supMut = some ps3 ∧
        scoreAt ps3 "A" = scoreAt ps2 "A" ∧
        scoreAt ps3 "B" = scoreAt ps2 "B") :=
  ⟨by decide, C4_theorem psC1 supMut "A" "B" (by decide) (by decide)
    (by decide) (by decide) (by decide)⟩

/-- Claim C7: a registered supporter naming itself as target always gets
the self-support error, and the dispatcher returns the original state
unchanged (in particular the ledger entry for that supporter and the rest
of the ledger are untouched) with a tool-level error result. -/
theorem C7_theorem (s : GameState) (pid : String) (p : Player)
    (args : List (String × String)) (fid : String)
    (h : getPlayerByPrivate s pid = some p)
    (h1 : dictGet args "private_id" = some pid)
    (h2 : dictGet args "player_to_support" = some p.name) :
    register_support s pid p.name = .error "You cannot support yourself" ∧
    handleToolsCall s "register_support" args fid =
      (s, .result [.text "Error: You cannot support yourself"] true) := by
  have herr : register_support s pid p.name =
      .error "You cannot support yourself" := by
    simp only [register_support, h]
    rw [if_pos trivial]
  refine ⟨herr, ?_⟩
  unfold handleToolsCall
  rw [if_neg (by decide), if_neg (by decide), if_neg (by decide),
    if_pos rfl]
  rw [show getArg args "private_id" = Except.ok pid by simp [getArg, h1],
    ok_bind,
    show getArg args "player_to_support" = Except.ok p.name by
      simp [getArg, h2],
    ok_bind, herr]
  rfl

/-- Witness for C7: player A of `sA` naming itself. -/
theorem C7_witness :
    getPlayerByPrivate sA "ida" = some pA ∧
    (register_support sA "ida" pA.name =
        .error "You cannot support yourself" ∧
      handleToolsCall sA "register_support"
          [("private_id", "ida"), ("player_to_support", "A")] "f" =
        (sA, .result [.text "Error: You cannot support yourself"] true)) :=
  ⟨by decide, C7_theorem sA "ida" pA
    [("private_id", "ida"), ("player_to_support", "A")] "f"
    (by decide) (by decide) (by decide)⟩

/-- Claim C8: registering a fresh name succeeds and the returned token
immediately resolves to a player with that name; registering a taken name
always fails with the duplicate-name error and the dispatcher returns the
state unchanged. -/
theorem C8_theorem (s : GameState) (nm fid : String)
    (args : List (String × String))
    (hargs : dictGet args "player_name" = some nm) :
    (dictGet s.players_by_name nm = none →
      ∃ s2 st, register_player s nm fid = .ok (s2, st) ∧
        st.private_id = fid ∧
        ∃ q, getPlayerByPrivate s2 fid = some q ∧ q.name = nm) ∧
    ((dictGet s.players_by_name nm).isSome →
      register_player s nm fid =
        .error ("Player \x27" ++ nm ++ "\x27 already exists") ∧
      handleToolsCall s "register_player" args fid =
        (s, .result
          [.text ("Error: Player \x27" ++ nm ++ "\x27 already exists")]
          true)) := by
  constructor
  · intro hnone
    have hok : register_player s nm fid = .ok
        ({ s with
            players_by_name := dictSet s.players_by_name nm
              { name := nm, private_id := fid, score := 0
                supported_you_last_round := [] }
            players_by_private := dictSet s.players_by_private fid nm },
         build_status
          { s with
            players_by_name := dictSet s.players_by_name nm
              { name := nm, private_id := fid, score := 0
                supported_you_last_round := [] }
            players_by_private := dictSet s.players_by_private fid nm }
          { name := nm, private_id := fid, score := 0
            supported_you_last_round := [] }) := by
      simp only [register_player]
      rw [if_neg (by rw [hnone]; simp)]
    refine ⟨_, _, hok, rfl, ?_⟩
    refine ⟨{ name := nm, private_id := fid, score := 0
              supported_you_last_round := [] }, ?_, rfl⟩
    unfold getPlayerByPrivate
    rw [show dictGet ({ s with
        players_by_name := dictSet s.players_by_name nm
          { name := nm, private_id := fid, score := 0
            supported_you_last_round := [] }
        players_by_private := dictSet s.players_by_private fid nm } :
          GameState).players_by_private fid =
      dictGet (dictSet s.players_by_private fid nm) fid from rfl]
    rw [dictGet_dictSet_self, Option.some_bind]
    exact dictGet_dictSet_self _ _ _
  · intro hsome
    have herr : register_player s nm fid =
        .error ("Player \x27" ++ nm ++ "\x27 already exists") := by
      simp only [register_player]
      rw [if_pos hsome]
    refine ⟨herr, ?_⟩
    unfold handleToolsCall
    rw [if_pos rfl]
    rw [show getArg args "player_name" = Except.ok nm by
      simp [getArg, hargs], ok_bind, herr]
    rfl

/-- Witness for C8: on state `sA`, the fresh name B registers and its
token resolves; the taken name A fails with the duplicate error. -/
theorem C8_witness :
    (dictGet [("player_name", "B")] "player_name" = some "B" ∧
      (dictGet sA.players_by_name "B" = none →
        ∃ s2 st, register_player sA "B" "idb" = .ok (s2, st) ∧
          st.private_id = "idb" ∧
          ∃ q, getPlayerByPrivate s2 "idb" = some q ∧ q.name = "B") ∧
      ((dictGet sA.players_by_name "B").isSome →
        register_player sA "B" "idb" =
          .error ("Player \x27" ++ "B" ++ "\x27 already exists") ∧
        handleToolsCall sA "register_player" [("player_name", "B")] "idb" =
          (sA, .result
            [.text ("Error: Player \x27" ++ "B" ++ "\x27 already exists")]
            true))) ∧
    (dictGet [("player_name", "A")] "player_name" = some "A" ∧
      (dictGet sA.players_by_name "A" = none →
        ∃ s2 st, register_player sA "A" "idx" = .ok (s2, st) ∧
          st.private_id = "idx" ∧
          ∃ q, getPlayerByPrivate s2 "idx" = some q ∧ q.name = "A") ∧
      ((dictGet sA.players_by_name "A").isSome →
        register_player sA "A" "idx" =
          .error ("Player \x27" ++ "A" ++ "\x27 already exists") ∧
        handleToolsCall sA "register_player" [("player_name", "A")] "idx" =
          (sA, .result
            [.text ("Error: Player \x27" ++ "A" ++ "\x27 already exists")]
            true))) :=
  ⟨⟨by decide, C8_theorem sA "B" "idb" [("player_name", "B")] (by decide)⟩,
   ⟨by decide, C8_theorem sA "A" "idx" [("player_name", "A")] (by decide)⟩⟩

/-- Claim C9: a message logged for `pname` in round N is selected by the
round-scoped status read exactly while the round counter equals N; after
a round advance it is no longer selected, although the advance leaves the
message log itself unmodified (nothing is mutated or deleted). -/
theorem C9_theorem (s : GameState) (pname : String) (m : Message)
    (s2 : GameState) (sb : Scoreboard)
    (hm : m ∈ s.messages) (hto : m.to_player = pname)
    (hadv : advance_round s = some (s2, sb)) :
    (m ∈ messagesThisRound s pname ↔ m.round_number = s.current_round) ∧
    s2.messages = s.messages ∧
    s2.current_round = s.current_round + 1 ∧
    (m.round_number = s.current_round → m ∉ messagesThisRound s2 pname) := by
  obtain ⟨hmsg, hpriv, hround, hsup, hsb⟩ := advance_round_shape hadv
  refine ⟨?_, hmsg, hround, ?_⟩
  · simp [messagesThisRound, List.mem_filter, hm, hto]
  · intro hr hmem
    rw [messagesThisRound, List.mem_filter] at hmem
    rcases hmem with ⟨_, hcond⟩
    rw [Bool.and_eq_true, beq_iff_eq, beq_iff_eq] at hcond
    rw [hround] at hcond
    omega

/-- Witness for C9: the round-1 message to A in `sAmsg`, carried across
one round advance. -/
theorem C9_witness :
    (msgAA ∈ messagesThisRound sAmsg "A" ↔
      msgAA.round_number = sAmsg.current_round) ∧
    (⟨[("A", ⟨"A", "ida", -1, []⟩)], [("ida", "A")], 2, [], [msgAA]⟩ :
      GameState).messages = sAmsg.messages ∧
    (⟨[("A", ⟨"A", "ida", -1, []⟩)], [("ida", "A")], 2, [], [msgAA]⟩ :
      GameState).current_round = sAmsg.current_round + 1 ∧
    (msgAA.round_number = sAmsg.current_round →
      msgAA ∉ messagesThisRound
        (⟨[("A", ⟨"A", "ida", -1, []⟩)], [("ida", "A")], 2, [], [msgAA]⟩ :
          GameState) "A") :=
  C9_theorem sAmsg "A" msgAA _
    ⟨1, [⟨"A", -1, none, []⟩]⟩
    (by decide) (by decide) (by decide)

/-- Claim C10: every status payload returned by one of the four tools
carries the calling player's own token as its `private_id`, and each
`other_players` entry carries only the other player's name, score and the
supported-you flag; no other player's token appears anywhere in it. -/
theorem C10_theorem (s : GameState) (hr : Reachable s) :
    (∀ nm fid s2 st, register_player s nm fid = .ok (s2, st) →
      st.private_id = fid ∧ OtherOk s2 st) ∧
    (∀ pid s2 st, get_status s pid = .ok (s2, st) →
      st.private_id = pid ∧ OtherOk s2 st) ∧
    (∀ pid r m s2 st, send_message s pid r m = .ok (s2, st) →
      st.private_id = pid ∧ OtherOk s2 st) ∧
    (∀ pid t s2 st, register_support s pid t = .ok (s2, st) →
      st.private_id = pid ∧ OtherOk s2 st) := by
  have hinv := reachable_inv hr
  refine ⟨?_, ?_, ?_, ?_⟩
  · intro nm fid s2 st heq
    have hinv2 := reachable_inv (Reachable.register s s2 nm fid st hr heq)
    obtain ⟨hnone, hs2, hst⟩ := register_player_ok heq
    subst hst
    exact ⟨rfl, build_status_other hinv2.2.2.1 _⟩
  · intro pid s2 st heq
    obtain ⟨p, hg, hs2, hst⟩ := get_status_ok heq
    subst hs2
    subst hst
    exact ⟨(getPlayerByPrivate_inv hinv hg).1,
      build_status_other hinv.2.2.1 p⟩
  · intro pid r m s2 st heq
    have hinv2 := reachable_inv (Reachable.message s s2 pid r m st hr heq)
    obtain ⟨sender, recipient, hg, hd, hs2, hst⟩ := send_message_ok heq
    subst hs2
    subst hst
    exact ⟨(getPlayerByPrivate_inv hinv hg).1,
      build_status_other hinv2.2.2.1 sender⟩
  · intro pid t s2 st heq
    have hinv2 := reachable_inv (Reachable.support s s2 pid t st hr heq)
    obtain ⟨sup, hg, hne, ht, hs2⟩ := register_support_ok heq
    have hst : st = build_status s2 sup := by
      subst hs2
      simp only [register_support, hg] at heq
      rw [if_neg hne] at heq
      rcases hd : dictGet s.players_by_name t with _ | q <;>
        simp only [hd] at heq
      · exact Except.noConfusion heq
      · injection heq with h2
        injection h2 with ha hb
        exact hb.symm
    subst hst
    exact ⟨(getPlayerByPrivate_inv hinv hg).1,
      build_status_other hinv2.2.2.1 sup⟩

/-- Witness for C10: the reachable two-player state `sAB`. -/
theorem C10_witness :
    (∀ nm fid s2 st, register_player sAB nm fid = .ok (s2, st) →
      st.private_id = fid ∧ OtherOk s2 st) ∧
    (∀ pid s2 st, get_status sAB pid = .ok (s2, st) →
      st.private_id = pid ∧ OtherOk s2 st) ∧
    (∀ pid r m s2 st, send_message sAB pid r m = .ok (s2, st) →
      st.private_id = pid ∧ OtherOk s2 st) ∧
    (∀ pid t s2 st, register_support sAB pid t = .ok (s2, st) →
      st.private_id = pid ∧ OtherOk s2 st) :=
  C10_theorem sAB
    (Reachable.register sA sAB "B" "idb" (build_status sAB pB)
      (Reachable.register GameState.init sA "A" "ida" (build_status sA pA)
        Reachable.init rfl)
      rfl)

/-- Claim C2, as stated, is false: a failing tool call (here a
`get_status` with an unknown token on the fresh state) yields a result
with `isError = true` whose content list holds a single text item and no
structured (JSON) item at all. -/
theorem C2_counterexample :
    handleToolsCall GameState.init "get_status" [("private_id", "zzz")]
        "f" =
      (GameState.init, CallOutcome.result
        [ContentItem.text "Error: Unknown private_id"] true) ∧
    hasJsonItem [ContentItem.text "Error: Unknown private_id"] = false :=
  ⟨by decide, rfl⟩

/-- Claim C2 (amended): every result the `tools/call` branch returns
carries the `isError` boolean; when `isError` is false the content holds
a structured item and a textual item serializing the identical payload;
when `isError` is true the content holds a textual item and no
structured item. -/
theorem C2_theorem (s : GameState) (name : String)
    (args : List (String × String)) (fid : String) (s2 : GameState)
    (content : List ContentItem) (isErr : Bool)
    (h : handleToolsCall s name args fid = (s2, .result content isErr)) :
    (isErr = false → ∃ res, ContentItem.json res ∈ content ∧
      ContentItem.text (dumps res) ∈ content) ∧
    (isErr = true → (∃ msg, ContentItem.text msg ∈ content) ∧
      hasJsonItem content = false) := by
  unfold handleToolsCall at h
  split at h
  · exact frameTool_spec h
  · split at h
    · exact frameTool_spec h
    · split at h
      · exact frameTool_spec h
      · split at h
        · exact frameTool_spec h
        · injection h with h1 h2
          exact CallOutcome.noConfusion h2

/-- Witness for C2: a successful `register_player` call on the fresh
state. -/
theorem C2_witness :
    ((false : Bool) = false → ∃ res,
      ContentItem.json res ∈
        [ContentItem.json (build_status sA pA),
         ContentItem.text (dumps (build_status sA pA))] ∧
      ContentItem.text (dumps res) ∈
        [ContentItem.json (build_status sA pA),
         ContentItem.text (dumps (build_status sA pA))]) ∧
    ((false : Bool) = true → (∃ msg, ContentItem.text msg ∈
        [ContentItem.json (build_status sA pA),
         ContentItem.text (dumps (build_status sA pA))]) ∧
      hasJsonItem
        [ContentItem.json (build_status sA pA),
         ContentItem.text (dumps (build_status sA pA))] = false) :=
  C2_theorem GameState.init "register_player" [("player_name", "A")] "ida"
    sA
    [ContentItem.json (build_status sA pA),
     ContentItem.text (dumps (build_status sA pA))]
    false rfl

end Alliance
